import Mathlib

/- Verification of the hedging transports in src/httpx_hedged.py.

   Shallow embedding.  Times and durations are modelled as rationals.  The
   asynchronous race inside `handle_async_request` (both transports) is
   modelled deterministically by an environment `bs : List Attempt`, where
   `bs[i]` describes how the wrapped transport behaves for attempt `i`: how
   long it takes to settle (`dur`, measured from the moment the attempt
   actually starts) and whether it settles with a response (`ok = true`) or
   raises a transport-level exception (`ok = false`).  Attempt 0 starts at
   dispatch entry (line 82); hedge attempt `i` starts when its scheduled
   `asyncio.sleep` elapses (lines 86-94), provided the race has not already
   ended.  `asyncio.wait(..., return_when=FIRST_COMPLETED)` (lines 98-100)
   returns at the earliest settlement time among the live tasks;
   `await completed_task` (line 104) returns the winner's response or
   re-raises its exception.  On the success path, lines 107-112 cancel
   every pending task and await the cancellations.  On the error path, the
   `except Exception` branch (lines 116-122, 231-237) iterates over the
   tasks in creation order, but the `await asyncio.gather(*tasks,
   return_exceptions=True)` sits inside the `if not task.done():` body: the
   first unfinished task is cancelled, the gather then awaits every task —
   during which each remaining unfinished task, sleeping hedges included,
   runs to natural completion — and the later loop iterations find all
   tasks done.  Durations are nonnegative, so a task
   whose start time lies at or after the earliest settlement can never
   itself settle strictly earlier; hence the earliest settlement computed
   over all scheduled attempts equals the one computed over the attempts
   that actually run.  Python exceptions that the embedded code can produce
   are collected in `PyErr`; a fallible operation returns `Except PyErr`. -/

namespace HttpxHedged

/-- exception kinds the embedded code can raise: a transport-level failure of
attempt `i`, `AttributeError` (reading an attribute `__init__` never
assigned), `TypeError` (unexpected keyword argument), and `ValueError`
(hedge-point validation). -/
inductive PyErr where
  | transportError (attempt : ℕ)
  | attributeError
  | typeError
  | valueError
  deriving DecidableEq

/-- behaviour of the wrapped transport for one attempt: time from the
attempt's own start to its settlement, and whether it settles with a
response (`ok = true`) or raises (`ok = false`). -/
structure Attempt where
  dur : ℚ
  ok : Bool
  deriving DecidableEq

instance : Inhabited Attempt := ⟨⟨0, true⟩⟩

/-- configuration stored by `SLOHedgingTransport.__init__` (lines 41-51). -/
structure SLOHedgingTransport where
  target_slo : ℚ
  hedge_at : ℚ
  max_hedges : ℕ
  deriving DecidableEq

/-- lines 41-51: `__init__` only stores its arguments as attributes; it
performs no validation whatsoever and cannot fail. -/
def SLOHedgingTransport.init (target_slo hedge_at : ℚ) (max_hedges : ℕ) :
    Except PyErr SLOHedgingTransport :=
  .ok ⟨target_slo, hedge_at, max_hedges⟩

/-- parameter names of `SLOHedgingTransport.__init__` (lines 41-47).  There
is no `use_adaptive_slo` parameter, so calling the constructor with that
keyword (as the test suite does) raises `TypeError`. -/
def sloInitParams : List String := ["transport", "target_slo", "hedge_at", "max_hedges"]

/-- lines 53-59: `_get_hedge_delay` returns `self.target_slo * self.hedge_at`.
The request argument is unused and no latency history is consulted (the
source defines no tracker), so the delay is a function of the stored
configuration only. -/
def SLOHedgingTransport.get_hedge_delay (t : SLOHedgingTransport) : ℚ :=
  t.target_slo * t.hedge_at

/-- lines 91-94: hedge task `i`, for `i` in `1..max_hedges`, is created with
delay `hedge_delay * i`.  Index `j` of this list is the delay of hedge
`j + 1`. -/
def SLOHedgingTransport.hedgeDelays (t : SLOHedgingTransport) : List ℚ :=
  (List.range t.max_hedges).map (fun j => t.get_hedge_delay * ((j + 1 : ℕ) : ℚ))

/-- absolute time at which attempt `i` begins: attempt 0 at dispatch entry
(line 82), hedge `i` when its `asyncio.sleep delays[i-1]` elapses (line 88,
delays measured from dispatch start since all hedge tasks are created at
entry). -/
def startTime (delays : List ℚ) : ℕ → ℚ
  | 0 => 0
  | j + 1 => delays.getD j 0

/-- absolute time at which attempt `i` would settle if allowed to run. -/
def settleTime (delays : List ℚ) (bs : List Attempt) (i : ℕ) : ℚ :=
  startTime delays i + (bs.getD i default).dur

/-- time at which `asyncio.wait(..., FIRST_COMPLETED)` (lines 98-100)
returns: the earliest settlement among the `bs.length` scheduled tasks. -/
def firstSettle (delays : List ℚ) (bs : List Attempt) : ℚ :=
  ((List.range bs.length).map (settleTime delays bs)).foldr min (settleTime delays bs 0)

/-- index of the task popped from the `done` set (line 103): the least index
whose settlement time equals the earliest settlement. -/
def winner (delays : List ℚ) (bs : List Attempt) : ℕ :=
  (List.range bs.length).findIdx
    (fun i => decide (settleTime delays bs i = firstSettle delays bs))

/-- whether attempt `i` invokes the wrapped transport before the race ends
(before `asyncio.wait` returns): attempt 0 always does; hedge `i` does only
if its sleep elapses strictly before the earliest settlement.  A sleeping
hedge task that is cancelled never reaches `send_request` (lines 86-89: the
cancellation lands at the `await asyncio.sleep` suspension point).  On the
success path these are the only transport invocations, because lines
107-112 cancel every pending task; on the error path further sleeping
hedges fire during the teardown gather, see `attemptStartedError`. -/
def attemptStarted (delays : List ℚ) (bs : List Attempt) (i : ℕ) : Bool :=
  i == 0 || decide (startTime delays i < firstSettle delays bs)

/-- observable state of one attempt task. -/
inductive TaskState where
  | runningAttempt
  | sleeping
  | doneOk
  | doneErr
  | cancelled
  deriving DecidableEq

/-- index of the first task in creation order that has not yet completed
when the race ends, if any.  This is the only task the error-path loop
(lines 116-122, 231-237) actually cancels: the `await
asyncio.gather(*tasks, return_exceptions=True)` is nested inside the
`if not task.done():` body, so after the first cancellation the gather
waits for every task and all later loop iterations find the tasks done. -/
def firstUnfinished (delays : List ℚ) (bs : List Attempt) : Option ℕ :=
  (List.range bs.length).find?
    (fun i => decide (firstSettle delays bs < settleTime delays bs i))

/-- final state of task `i` when the success path is taken (SLO transport,
first completed attempt carries a response): lines 107-112 cancel every
pending task and await the cancellations before the response is
returned. -/
def taskFinalSuccess (delays : List ℚ) (bs : List Attempt) (i : ℕ) : TaskState :=
  if settleTime delays bs i ≤ firstSettle delays bs then
    (if (bs.getD i default).ok then .doneOk else .doneErr)
  else .cancelled

/-- final state of task `i` when the error path is taken (lines 116-122,
231-237): only the first unfinished task in creation order is cancelled;
the nested gather then awaits every task, so each other unfinished task —
sleeping hedges included — runs to natural completion and ends settled,
not cancelled. -/
def taskFinalError (delays : List ℚ) (bs : List Attempt) (i : ℕ) : TaskState :=
  if settleTime delays bs i ≤ firstSettle delays bs then
    (if (bs.getD i default).ok then .doneOk else .doneErr)
  else if firstUnfinished delays bs = some i then .cancelled
  else (if (bs.getD i default).ok then .doneOk else .doneErr)

/-- whether attempt `i` ever invokes the wrapped transport when the error
path is taken: the in-race invocations, plus every unfinished task other
than the single one cancelled first — its sleep elapses during the nested
gather and it then sends its request, although the dispatch outcome is
already decided. -/
def attemptStartedError (delays : List ℚ) (bs : List Attempt) (i : ℕ) : Bool :=
  attemptStarted delays bs i ||
    (decide (firstSettle delays bs < settleTime delays bs i) &&
      ! decide (firstUnfinished delays bs = some i))

/-- lines 96-122: outcome of `SLOHedgingTransport.handle_async_request`.
The first task to complete is awaited; its response is returned (`.ok`,
carrying the winning attempt's index), or its exception propagates after
the error-path teardown (`taskFinalError`). -/
def sloDispatch (t : SLOHedgingTransport) (bs : List Attempt) : Except PyErr ℕ :=
  let w := winner t.hedgeDelays bs
  if (bs.getD w default).ok then .ok w else .error (.transportError w)

/-- configuration stored by `PercentileHedgingTransport.__init__`
(lines 141-157). -/
structure PercentileHedgingTransport where
  target_slo : ℚ
  hedge_points : List ℚ
  deriving DecidableEq

/-- default hedge points substituted for an empty (falsy) list by
`hedge_points or [0.5, 0.75, 0.95]` (line 149). -/
def defaultHedgePoints : List ℚ := [1/2, 3/4, 19/20]

/-- attribute names `PercentileHedgingTransport.__init__` assigns
(lines 147-157).  Neither `use_adaptive_slo` nor `latency_tracker` is among
them, and the class defines no class-level attributes either. -/
def percentileInitAttrs : List String := ["transport", "target_slo", "hedge_points"]

/-- parameter names of `PercentileHedgingTransport.__init__` (lines 141-146). -/
def percentileInitParams : List String := ["transport", "target_slo", "hedge_points"]

/-- Python attribute lookup on a `PercentileHedgingTransport` instance:
only attributes assigned in `__init__` exist; reading any other name
raises `AttributeError`. -/
def percentileHasattr (name : String) : Bool :=
  percentileInitAttrs.contains name

/-- lines 141-157: store the attributes, substitute the defaults for an
empty list (line 149), raise `ValueError` if any effective point is outside
the open interval (0,1) (lines 151-154), then sort the points (line 157). -/
def PercentileHedgingTransport.init (target_slo : ℚ) (hedge_points : List ℚ) :
    Except PyErr PercentileHedgingTransport :=
  let pts := if hedge_points.isEmpty then defaultHedgePoints else hedge_points
  if pts.all (fun p => decide ((0:ℚ) < p) && decide (p < 1)) then
    .ok ⟨target_slo, List.insertionSort (· ≤ ·) pts⟩
  else .error .valueError

/-- lines 163-170: `_get_hedge_delays` returns `target_slo * point` for each
stored hedge point; no latency history is consulted. -/
def PercentileHedgingTransport.get_hedge_delays (t : PercentileHedgingTransport) : List ℚ :=
  t.hedge_points.map (fun p => t.target_slo * p)

/-- lines 207-237: outcome of `PercentileHedgingTransport.handle_async_request`.
The race proceeds exactly as for the SLO transport, but on the success path
line 218 reads `self.use_adaptive_slo` before `return response` (line 229).
That attribute is never assigned, so the read raises `AttributeError` —
before the pending-cancel block at lines 222-227 is reached, leaving that
block unreachable — and the `except Exception` handler (lines 231-237)
re-raises after the error-path teardown (`taskFinalError`). -/
def percentileDispatch (t : PercentileHedgingTransport) (bs : List Attempt) :
    Except PyErr ℕ :=
  let w := winner t.get_hedge_delays bs
  if (bs.getD w default).ok then
    (if percentileHasattr "use_adaptive_slo" then .ok w else .error .attributeError)
  else .error (.transportError w)

/-- Modelled from the spec: `LatencyTracker` is imported by
`src/test_httpx_hedged.py` (line 15) but never defined in
`src/httpx_hedged.py`; only its tests exist.  Spec section 4.3: a bounded
per-endpoint history of observed latencies with a configured window size
and percentile. -/
structure LatencyTracker where
  window_size : ℕ
  percentile : ℚ
  latencies : List (String × List ℚ)
  deriving DecidableEq

/-- append `x` to a window `h` bounded by `W`: if the history already holds
`W` entries the oldest (head) entry is evicted first. -/
def pushWindow (W : ℕ) (h : List ℚ) (x : ℚ) : List ℚ :=
  if h.length = W then h.tail ++ [x] else h ++ [x]

/-- update the association list entry for `key` with `f`, treating a missing
key as the empty history. -/
def updateEntry (m : List (String × List ℚ)) (key : String) (f : List ℚ → List ℚ) :
    List (String × List ℚ) :=
  match m with
  | [] => [(key, f [])]
  | (k, v) :: rest =>
      if k = key then (k, f v) :: rest else (k, v) :: updateEntry rest key f

/-- the history currently stored for `key` (empty if the key is unknown). -/
def LatencyTracker.history (tr : LatencyTracker) (key : String) : List ℚ :=
  (tr.latencies.lookup key).getD []

/-- Modelled from the spec: `record(endpointKey, latency)` appends to that
endpoint's history and, if the history already holds the configured window
size, evicts the oldest entry first (strict FIFO bound).  It is a side
effect only and never fails (the model is a total function). -/
def LatencyTracker.record (tr : LatencyTracker) (key : String) (x : ℚ) : LatencyTracker :=
  { tr with latencies := updateEntry tr.latencies key (fun h => pushWindow tr.window_size h x) }

/-- record a whole sequence of latencies for one endpoint, oldest first. -/
def LatencyTracker.recordMany (tr : LatencyTracker) (key : String) (xs : List ℚ) :
    LatencyTracker :=
  xs.foldl (fun t x => t.record key x) tr

/-- request as the key derivation sees it (method, URL host, URL path);
Python strings are modelled as lists of characters. -/
structure Request where
  method : List Char
  host : List Char
  path : List Char

/-- lines 159-161: `_get_endpoint_key` returns the concatenation of the URL
host and the URL path; the HTTP method plays no part. -/
def get_endpoint_key (r : Request) : List Char :=
  r.host ++ r.path

/-- Python keyword-argument binding: a call raises `TypeError` (unexpected
keyword argument) unless every provided keyword names a parameter of the
callee. -/
def pyCallKwargsOk (params provided : List String) : Bool :=
  provided.all (fun k => params.contains k)

/-- keyword arguments `PercentileHedgingClient.__init__` passes to
`PercentileHedgingTransport` (lines 291-296): it always includes
`use_adaptive_slo`. -/
def percentileClientTransportKwargs : List String :=
  ["transport", "target_slo", "hedge_points", "use_adaptive_slo"]

/-- lines 283-297: `PercentileHedgingClient.__init__` forwards its arguments,
always including the keyword `use_adaptive_slo`, to
`PercentileHedgingTransport.__init__`; if the keywords bind, construction
proceeds as `PercentileHedgingTransport.init`. -/
def PercentileHedgingClient.init (target_slo : ℚ) (hedge_points : List ℚ)
    (_use_adaptive_slo : Bool) : Except PyErr PercentileHedgingTransport :=
  if pyCallKwargsOk percentileInitParams percentileClientTransportKwargs then
    PercentileHedgingTransport.init target_slo hedge_points
  else .error .typeError

/-- a left fold of `min` never exceeds its initial accumulator. -/
theorem foldr_min_le_init (a : ℚ) (l : List ℚ) : l.foldr min a ≤ a := by
  induction l with
  | nil => exact le_refl a
  | cons x l ih => exact le_trans (min_le_right x (l.foldr min a)) ih

/-- a lower bound of the initial accumulator and of every list element is a
lower bound of the fold. -/
theorem le_foldr_min (c a : ℚ) (l : List ℚ) (h1 : c ≤ a) (h2 : ∀ x ∈ l, c ≤ x) :
    c ≤ l.foldr min a := by
  induction l with
  | nil => exact h1
  | cons x l ih =>
      exact le_min (h2 x (List.mem_cons_self x l))
        (ih (fun y hy => h2 y (List.mem_cons_of_mem x hy)))

/-- a fold of `min` is bounded by every list element. -/
theorem foldr_min_le_mem (a x : ℚ) (l : List ℚ) (hx : x ∈ l) : l.foldr min a ≤ x := by
  induction l with
  | nil => cases hx
  | cons y l ih =>
      rcases List.mem_cons.mp hx with h | h
      · exact h ▸ min_le_left y (l.foldr min a)
      · exact le_trans (min_le_right y (l.foldr min a)) (ih h)

/-- an in-bounds `getD` access is a member of the list. -/
theorem list_getD_mem {α : Type} [Inhabited α] :
    ∀ (l : List α) (i : ℕ), i < l.length → l.getD i default ∈ l
  | [], _, h => absurd h (by simp)
  | a :: l, 0, _ => List.mem_cons_self a l
  | a :: l, i + 1, h =>
      List.mem_cons_of_mem a (list_getD_mem l i (Nat.lt_of_succ_lt_succ h))

/-- `getD` commutes with `map` at in-bounds indices. -/
theorem getD_map_nat (f : ℕ → ℚ) :
    ∀ (l : List ℕ) (i : ℕ), i < l.length → (l.map f).getD i 0 = f (l.getD i 0)
  | [], _, h => absurd h (by simp)
  | _ :: _, 0, _ => rfl
  | _ :: l, i + 1, h => getD_map_nat f l i (Nat.lt_of_succ_lt_succ h)

/-- `getD` on `List.range` is the identity at in-bounds indices. -/
theorem getD_range : ∀ (n i : ℕ), i < n → (List.range n).getD i 0 = i := by
  intro n i h
  rw [List.getD_eq_getElem?_getD, List.getElem?_range h]
  rfl

/-- `findIdx` over `List.range n` returns 0 as soon as the predicate accepts 0. -/
theorem findIdx_range_zero (p : ℕ → Bool) (n : ℕ) (hn : 0 < n) (hp : p 0 = true) :
    (List.range n).findIdx p = 0 := by
  obtain ⟨m, rfl⟩ := Nat.exists_eq_succ_of_ne_zero (Nat.pos_iff_ne_zero.mp hn)
  rw [List.range_succ_eq_map, List.findIdx_cons, hp]
  rfl

/-- looking up the key just updated by `updateEntry` yields the updated value. -/
theorem lookup_updateEntry (key : String) (f : List ℚ → List ℚ) :
    ∀ (m : List (String × List ℚ)),
      (updateEntry m key f).lookup key = some (f ((m.lookup key).getD []))
  | [] => by simp [updateEntry, List.lookup]
  | (k, v) :: rest => by
      by_cases hk : k = key
      · subst hk
        simp [updateEntry, List.lookup]
      · have h1 : (key == k) = false := by
          simp [beq_iff_eq]
          exact fun h => hk h.symm
        simp [updateEntry, List.lookup, hk, h1, lookup_updateEntry key f rest]

/-- one `record` call replaces the endpoint's history by one `pushWindow` step. -/
theorem history_record (tr : LatencyTracker) (key : String) (x : ℚ) :
    (tr.record key x).history key = pushWindow tr.window_size (tr.history key) x := by
  simp [LatencyTracker.record, LatencyTracker.history, lookup_updateEntry]

/-- `recordMany` folds `pushWindow` over the endpoint's history. -/
theorem history_recordMany (key : String) :
    ∀ (xs : List ℚ) (tr : LatencyTracker),
      (tr.recordMany key xs).history key =
        xs.foldl (pushWindow tr.window_size) (tr.history key)
  | [], _ => rfl
  | x :: xs, tr => by
      show ((tr.record key x).recordMany key xs).history key = _
      rw [history_recordMany key xs (tr.record key x)]
      show List.foldl (pushWindow tr.window_size) ((tr.record key x).history key) xs = _
      rw [history_record]
      rfl

/-- folding `pushWindow W` from the empty window keeps exactly the last `W`
recorded values, in order. -/
theorem foldl_pushWindow (W : ℕ) (hW : 0 < W) :
    ∀ (xs : List ℚ), List.foldl (pushWindow W) [] xs = xs.drop (xs.length - W) := by
  intro xs
  induction xs using List.reverseRecOn with
  | nil => simp
  | append_singleton ys x ih =>
      rw [List.foldl_append, ih]
      show pushWindow W (ys.drop (ys.length - W)) x = _
      rw [List.length_append, List.length_singleton]
      by_cases h : W ≤ ys.length
      · have hlen : (ys.drop (ys.length - W)).length = W := by
          rw [List.length_drop]; omega
        have hd : (ys ++ [x]).drop (ys.length + 1 - W) =
            ys.drop (ys.length + 1 - W) ++ [x] :=
          List.drop_append_of_le_length (by omega)
        rw [pushWindow, if_pos hlen, List.tail_drop, hd]
        congr 2
        omega
      · have h0 : ys.length - W = 0 := by omega
        have h1 : ys.length ≠ W := by omega
        have h2 : ys.length + 1 - W = 0 := by omega
        rw [h0, List.drop_zero, pushWindow, if_neg h1, h2, List.drop_zero]

/-- splitting a concatenation at the first slash is unambiguous: if the host
parts contain no slash and both suffixes begin with one, equal
concatenations force equal parts. -/
theorem append_no_slash_inj :
    ∀ (h₁ h₂ p₁ p₂ : List Char), '/' ∉ h₁ → '/' ∉ h₂ →
      h₁ ++ '/' :: p₁ = h₂ ++ '/' :: p₂ → h₁ = h₂ ∧ p₁ = p₂ := by
  intro h₁
  induction h₁ with
  | nil =>
      intro h₂ p₁ p₂ _ hn₂ h
      cases h₂ with
      | nil =>
          simp only [List.nil_append] at h
          injection h with _ h2
          exact ⟨rfl, h2⟩
      | cons c t =>
          simp only [List.nil_append, List.cons_append] at h
          injection h with h1 _
          subst h1
          exact absurd (List.mem_cons_self _ _) hn₂
  | cons c t ih =>
      intro h₂ p₁ p₂ hn₁ hn₂ h
      cases h₂ with
      | nil =>
          simp only [List.nil_append, List.cons_append] at h
          injection h with h1 _
          subst h1
          exact absurd (List.mem_cons_self _ _) hn₁
      | cons c' t' =>
          simp only [List.cons_append] at h
          injection h with h1 h2
          subst h1
          obtain ⟨ht, hp⟩ := ih t' p₁ p₂ (fun hm => hn₁ (List.mem_cons_of_mem _ hm))
            (fun hm => hn₂ (List.mem_cons_of_mem _ hm)) h2
          exact ⟨by rw [ht], hp⟩

/-- C4: the LatencyTracker's record operation appends a latency to the given
endpoint's history and, when the history already holds the configured
window size W, evicts the oldest entry first, so that after n record calls
on one endpoint with n > W exactly W entries remain, equal to the W most
recent values in recency order; record never fails (it is a total
function). -/
theorem latencyTracker_window_fifo (W : ℕ) (p : ℚ) (key : String) (xs : List ℚ)
    (hW : 0 < W) (hn : W < xs.length) :
    ((LatencyTracker.mk W p []).recordMany key xs).history key =
      xs.drop (xs.length - W) ∧
    (((LatencyTracker.mk W p []).recordMany key xs).history key).length = W := by
  have h0 : (LatencyTracker.mk W p []).history key = [] := rfl
  have h := history_recordMany key xs (LatencyTracker.mk W p [])
  rw [h0] at h
  constructor
  · rw [h]
    exact foldl_pushWindow W hW xs
  · rw [h, foldl_pushWindow W hW xs, List.length_drop]
    omega

/-- witness for C4 at window size 2 and three recorded values: the history
is the two most recent values, in order. -/
theorem latencyTracker_window_fifo_witness :
    ((LatencyTracker.mk 2 (19/20) []).recordMany "e" [1, 2, 3]).history "e" = [2, 3] ∧
    (((LatencyTracker.mk 2 (19/20) []).recordMany "e" [1, 2, 3]).history "e").length = 2 := by
  have h := latencyTracker_window_fifo 2 (19/20) "e" [1, 2, 3] (by norm_num) (by norm_num)
  simpa using h

/-- C3: contrary to the claim, no adaptive SLO exists in the code:
`_get_hedge_delay` is a function of the stored configuration only (no
latency history is consulted, and no tracker exists in the source), so in
the claimed scenario (target SLO 2.0, hedge fraction 0.9) the hedge delay
is 1.8, not a value derived from the learned 0.5s latencies; moreover the
constructor rejects the `use_adaptive_slo` keyword the tests pass, so
adaptive mode cannot even be switched on.  The final conjunct contradicts
the test-suite assertion `delay < 1.0`. -/
theorem no_adaptive_slo_in_code :
    (∀ t : SLOHedgingTransport, t.get_hedge_delay = t.target_slo * t.hedge_at) ∧
    SLOHedgingTransport.get_hedge_delay ⟨2, 9/10, 1⟩ = 9/5 ∧
    pyCallKwargsOk sloInitParams
      ["transport", "target_slo", "hedge_at", "use_adaptive_slo"] = false ∧
    1 < SLOHedgingTransport.get_hedge_delay ⟨2, 9/10, 1⟩ := by
  refine ⟨fun t => rfl, by norm_num [SLOHedgingTransport.get_hedge_delay], by decide,
    by norm_num [SLOHedgingTransport.get_hedge_delay]⟩

/-- C10: every construction of `PercentileHedgingClient` raises `TypeError`,
because `__init__` always passes the keyword argument `use_adaptive_slo` to
`PercentileHedgingTransport.__init__`, whose signature does not accept
it. -/
theorem percentile_client_always_type_error (target_slo : ℚ) (hedge_points : List ℚ)
    (use_adaptive_slo : Bool) :
    PercentileHedgingClient.init target_slo hedge_points use_adaptive_slo =
      .error .typeError := by
  have h : pyCallKwargsOk percentileInitParams percentileClientTransportKwargs = false := by
    decide
  simp [PercentileHedgingClient.init, h]

/-- counterexample to C5: constructing `SLOHedgingTransport` with hedge
fraction 3/2 (outside (0,1)) succeeds without any error, and constructing
`PercentileHedgingTransport` with a negative target SLO succeeds as well —
the claimed construction-time `InvalidConfiguration` failure does not
happen. -/
theorem construction_validation_cex :
    SLOHedgingTransport.init 1 (3/2) 1 = .ok ⟨1, 3/2, 1⟩ ∧
    (PercentileHedgingTransport.init (-1) [1/2]).isOk = true := by
  constructor
  · rfl
  · norm_num [PercentileHedgingTransport.init, Except.isOk, Except.toBool]

/-- C5 (amended): only `PercentileHedgingTransport` validates configuration,
and only the hedge points: its constructor fails (with `ValueError`)
exactly when some effective hedge point — the provided list, or the
defaults when the list is empty — lies outside the open interval (0,1);
`SLOHedgingTransport`'s constructor performs no validation and always
succeeds, target SLO and window parameters are never validated, and no
validation error is ever raised mid-dispatch. -/
theorem construction_validation (target_slo : ℚ) (pts : List ℚ) :
    (∀ (s h : ℚ) (m : ℕ), SLOHedgingTransport.init s h m = .ok ⟨s, h, m⟩) ∧
    ((PercentileHedgingTransport.init target_slo pts).isOk = true ↔
      ∀ p ∈ (if pts.isEmpty then defaultHedgePoints else pts), 0 < p ∧ p < 1) ∧
    (∀ (t : SLOHedgingTransport) (bs : List Attempt),
      sloDispatch t bs ≠ .error .valueError) ∧
    (∀ (tp : PercentileHedgingTransport) (bs : List Attempt),
      percentileDispatch tp bs ≠ .error .valueError) := by
  refine ⟨fun s h m => rfl, ?_, ?_, ?_⟩
  · have heval : (PercentileHedgingTransport.init target_slo pts).isOk =
        (if pts.isEmpty then defaultHedgePoints else pts).all
          (fun p => decide ((0:ℚ) < p) && decide (p < 1)) := by
      by_cases hc : (if pts.isEmpty then defaultHedgePoints else pts).all
          (fun p => decide ((0:ℚ) < p) && decide (p < 1)) = true
      · rw [hc]
        show (if (if pts.isEmpty then defaultHedgePoints else pts).all
            (fun p => decide ((0:ℚ) < p) && decide (p < 1)) then
            (Except.ok ⟨target_slo, List.insertionSort (· ≤ ·)
              (if pts.isEmpty then defaultHedgePoints else pts)⟩ :
              Except PyErr PercentileHedgingTransport)
          else Except.error PyErr.valueError).isOk = true
        rw [if_pos hc]
        rfl
      · rw [Bool.not_eq_true] at hc
        rw [hc]
        show (if (if pts.isEmpty then defaultHedgePoints else pts).all
            (fun p => decide ((0:ℚ) < p) && decide (p < 1)) then
            (Except.ok ⟨target_slo, List.insertionSort (· ≤ ·)
              (if pts.isEmpty then defaultHedgePoints else pts)⟩ :
              Except PyErr PercentileHedgingTransport)
          else Except.error PyErr.valueError).isOk = false
        rw [if_neg (by rw [hc]; exact Bool.false_ne_true)]
        rfl
    rw [heval]
    simp [List.all_eq_true, Bool.and_eq_true, decide_eq_true_eq]
  · intro t bs h
    revert h
    show (if (bs.getD (winner t.hedgeDelays bs) default).ok then
        (Except.ok (winner t.hedgeDelays bs)) else
        Except.error (PyErr.transportError (winner t.hedgeDelays bs))) ≠
      Except.error PyErr.valueError
    split
    · intro h
      cases h
    · intro h
      injection h with h2
      cases h2
  · intro tp bs h
    revert h
    show (if (bs.getD (winner tp.get_hedge_delays bs) default).ok then
        (if percentileHasattr "use_adaptive_slo" then
          Except.ok (winner tp.get_hedge_delays bs) else Except.error PyErr.attributeError)
      else Except.error (PyErr.transportError (winner tp.get_hedge_delays bs))) ≠
      Except.error PyErr.valueError
    split
    · split
      · intro h
        cases h
      · intro h
        injection h with h2
        cases h2
    · intro h
      injection h with h2
      cases h2

/-- witness for C5 (amended): a configuration whose hedge points all lie in
(0,1) constructs successfully. -/
theorem construction_validation_witness :
    (PercentileHedgingTransport.init 1 [1/2]).isOk = true :=
  (construction_validation 1 [1/2]).2.1.mpr (by norm_num)

/-- C2: for every race, `PercentileHedgingTransport.handle_async_request`
never returns a response; whenever the first completed attempt carries a
response, the method raises `AttributeError` instead (it reads
`self.use_adaptive_slo`, which its constructor never assigns). -/
theorem percentile_dispatch_never_returns (t : PercentileHedgingTransport)
    (bs : List Attempt) :
    (percentileDispatch t bs).isOk = false ∧
    ((bs.getD (winner t.get_hedge_delays bs) default).ok = true →
      percentileDispatch t bs = .error .attributeError) := by
  have hattr : ¬ (percentileHasattr "use_adaptive_slo" = true) := by decide
  have hshape : percentileDispatch t bs =
      if (bs.getD (winner t.get_hedge_delays bs) default).ok then
        (if percentileHasattr "use_adaptive_slo" then
          Except.ok (winner t.get_hedge_delays bs)
        else Except.error PyErr.attributeError)
      else Except.error (PyErr.transportError (winner t.get_hedge_delays bs)) := rfl
  by_cases hok : (bs.getD (winner t.get_hedge_delays bs) default).ok
  · rw [hshape, if_pos hok, if_neg hattr]
    exact ⟨rfl, fun _ => rfl⟩
  · rw [hshape, if_neg hok]
    exact ⟨rfl, fun h => absurd h hok⟩

/-- witness for C2: a concrete race whose first completed attempt succeeds,
and the dispatch nonetheless reports `AttributeError`. -/
theorem percentile_dispatch_never_returns_witness :
    percentileDispatch ⟨1, [1/2]⟩ [⟨1/10, true⟩, ⟨1, true⟩] =
      .error .attributeError :=
  (percentile_dispatch_never_returns ⟨1, [1/2]⟩ [⟨1/10, true⟩, ⟨1, true⟩]).2
    (by norm_num [winner, firstSettle, settleTime, startTime,
      PercentileHedgingTransport.get_hedge_delays, List.range_succ, min_def,
      List.findIdx_cons])

/-- counterexample to C6: with target SLO 2, fraction 1/2 and two hedges
(delays 1.0 and 2.0), attempt 0 fails at 0.1 and the error path is taken;
hedge 2 — a non-winning, still-sleeping task — is not cancelled: it fires
its attempt during the teardown gather (it had not started during the race)
and ends settled, contradicting the claim that every non-winning task is
cancelled before the dispatch call returns. -/
theorem not_all_losers_cancelled_cex :
    sloDispatch ⟨2, 1/2, 2⟩ [⟨1/10, false⟩, ⟨1/10, true⟩, ⟨1/10, true⟩] =
      .error (.transportError 0) ∧
    taskFinalError (SLOHedgingTransport.hedgeDelays ⟨2, 1/2, 2⟩)
      [⟨1/10, false⟩, ⟨1/10, true⟩, ⟨1/10, true⟩] 2 = TaskState.doneOk ∧
    attemptStarted (SLOHedgingTransport.hedgeDelays ⟨2, 1/2, 2⟩)
      [⟨1/10, false⟩, ⟨1/10, true⟩, ⟨1/10, true⟩] 2 = false ∧
    attemptStartedError (SLOHedgingTransport.hedgeDelays ⟨2, 1/2, 2⟩)
      [⟨1/10, false⟩, ⟨1/10, true⟩, ⟨1/10, true⟩] 2 = true := by
  refine ⟨?_, ?_, ?_, ?_⟩ <;>
    norm_num [sloDispatch, winner, firstSettle, settleTime, startTime,
      SLOHedgingTransport.hedgeDelays, SLOHedgingTransport.get_hedge_delay,
      attemptStarted, attemptStartedError, taskFinalError, firstUnfinished,
      List.range_succ, min_def, List.findIdx_cons, List.find?]

/-- C6 (amended): on the success path every pending task is cancelled and
its cancellation awaited before the response is returned; on the error path
only the first unfinished task in creation order is cancelled, and every
other unfinished task runs to natural completion — invoking the transport
if it was still sleeping — and is awaited by the nested gather, ending
settled rather than cancelled.  On both paths, and for the percentile
transport (which always exits through the error path), every task has
terminated before the dispatch call returns or raises: zero tasks remain
live after return, but not every non-winning task is cancelled. -/
theorem dispatch_teardown (t : SLOHedgingTransport)
    (tp : PercentileHedgingTransport) (bs : List Attempt) (i : ℕ) :
    (taskFinalSuccess t.hedgeDelays bs i ≠ TaskState.runningAttempt ∧
      taskFinalSuccess t.hedgeDelays bs i ≠ TaskState.sleeping ∧
      taskFinalError t.hedgeDelays bs i ≠ TaskState.runningAttempt ∧
      taskFinalError t.hedgeDelays bs i ≠ TaskState.sleeping ∧
      taskFinalError tp.get_hedge_delays bs i ≠ TaskState.runningAttempt ∧
      taskFinalError tp.get_hedge_delays bs i ≠ TaskState.sleeping) ∧
    (firstSettle t.hedgeDelays bs < settleTime t.hedgeDelays bs i →
      taskFinalSuccess t.hedgeDelays bs i = TaskState.cancelled) ∧
    (firstUnfinished t.hedgeDelays bs = some i →
      taskFinalError t.hedgeDelays bs i = TaskState.cancelled) ∧
    (firstSettle t.hedgeDelays bs < settleTime t.hedgeDelays bs i →
      firstUnfinished t.hedgeDelays bs ≠ some i →
      taskFinalError t.hedgeDelays bs i ≠ TaskState.cancelled) := by
  have hS : ∀ (d : List ℚ) (j : ℕ),
      taskFinalSuccess d bs j ≠ TaskState.runningAttempt ∧
      taskFinalSuccess d bs j ≠ TaskState.sleeping := by
    intro d j
    rw [taskFinalSuccess]
    split
    · split <;> simp
    · simp
  have hE : ∀ (d : List ℚ) (j : ℕ),
      taskFinalError d bs j ≠ TaskState.runningAttempt ∧
      taskFinalError d bs j ≠ TaskState.sleeping := by
    intro d j
    rw [taskFinalError]
    split
    · split <;> simp
    · split
      · simp
      · split <;> simp
  refine ⟨⟨(hS _ i).1, (hS _ i).2, (hE t.hedgeDelays i).1, (hE t.hedgeDelays i).2,
    (hE tp.get_hedge_delays i).1, (hE tp.get_hedge_delays i).2⟩, ?_, ?_, ?_⟩
  · intro hunf
    rw [taskFinalSuccess, if_neg (not_le.mpr hunf)]
  · intro hf
    have hf' : (List.range bs.length).find?
        (fun j => decide (firstSettle t.hedgeDelays bs <
          settleTime t.hedgeDelays bs j)) = some i := hf
    have hp := List.find?_some hf'
    have hunf : firstSettle t.hedgeDelays bs < settleTime t.hedgeDelays bs i :=
      of_decide_eq_true hp
    rw [taskFinalError, if_neg (not_le.mpr hunf), if_pos hf]
  · intro hunf hnf
    rw [taskFinalError, if_neg (not_le.mpr hunf), if_neg hnf]
    split <;> simp

/-- witness for C6 (amended): a pending attempt 0 (the hedge wins at 0.6,
attempt 0 would settle at 1.0) is cancelled on the success path, and as the
first unfinished task it is also the one cancelled on the error path. -/
theorem dispatch_teardown_witness :
    taskFinalSuccess (SLOHedgingTransport.hedgeDelays ⟨1, 1/2, 1⟩)
      [⟨1, true⟩, ⟨1/10, true⟩] 0 = TaskState.cancelled ∧
    taskFinalError (SLOHedgingTransport.hedgeDelays ⟨1, 1/2, 1⟩)
      [⟨1, true⟩, ⟨1/10, true⟩] 0 = TaskState.cancelled := by
  have h := dispatch_teardown ⟨1, 1/2, 1⟩ ⟨1, [1/2]⟩ [⟨1, true⟩, ⟨1/10, true⟩] 0
  refine ⟨h.2.1 ?_, h.2.2.1 ?_⟩ <;>
    norm_num [firstUnfinished, firstSettle, settleTime, startTime,
      SLOHedgingTransport.hedgeDelays, SLOHedgingTransport.get_hedge_delay,
      List.range_succ, min_def, List.find?]

/-- C9: the endpoint key is the host concatenated with the path: requests
agreeing on host and path get the same key whatever their methods, and —
since a host contains no slash while a path starts with one — the key
determines host and path uniquely, so requests differing in path get
different keys. -/
theorem endpoint_key_host_path (r₁ r₂ : Request)
    (hh₁ : '/' ∉ r₁.host) (hh₂ : '/' ∉ r₂.host)
    (hp₁ : r₁.path.head? = some '/') (hp₂ : r₂.path.head? = some '/') :
    (r₁.host = r₂.host → r₁.path = r₂.path →
      get_endpoint_key r₁ = get_endpoint_key r₂) ∧
    (get_endpoint_key r₁ = get_endpoint_key r₂ →
      r₁.host = r₂.host ∧ r₁.path = r₂.path) := by
  constructor
  · intro h1 h2
    unfold get_endpoint_key
    rw [h1, h2]
  · intro hk
    obtain ⟨q₁, hq₁⟩ : ∃ q, r₁.path = '/' :: q := by
      cases hpath : r₁.path with
      | nil => rw [hpath] at hp₁; cases hp₁
      | cons c q =>
          rw [hpath] at hp₁
          injection hp₁ with h
          exact ⟨q, by rw [h]⟩
    obtain ⟨q₂, hq₂⟩ : ∃ q, r₂.path = '/' :: q := by
      cases hpath : r₂.path with
      | nil => rw [hpath] at hp₂; cases hp₂
      | cons c q =>
          rw [hpath] at hp₂
          injection hp₂ with h
          exact ⟨q, by rw [h]⟩
    unfold get_endpoint_key at hk
    rw [hq₁, hq₂] at hk
    obtain ⟨hh, hp⟩ := append_no_slash_inj r₁.host r₂.host q₁ q₂ hh₁ hh₂ hk
    exact ⟨hh, by rw [hq₁, hq₂, hp]⟩

/-- witness for C9: a GET and a POST to the same host and path map to the
same endpoint key. -/
theorem endpoint_key_host_path_witness :
    get_endpoint_key ⟨['G', 'E', 'T'], ['a'], ['/', 'b']⟩ =
      get_endpoint_key ⟨['P', 'O', 'S', 'T'], ['a'], ['/', 'b']⟩ :=
  (endpoint_key_host_path ⟨['G', 'E', 'T'], ['a'], ['/', 'b']⟩
    ⟨['P', 'O', 'S', 'T'], ['a'], ['/', 'b']⟩
    (by simp) (by simp) rfl rfl).1 rfl rfl

/-- C8: in the fixed-fraction policy attempt 0 starts immediately, and hedge
`j + 1` is scheduled at delay `target_slo * hedge_at * (j + 1)` measured
from dispatch start — integer multiples of the base delay
`target_slo * hedge_at`. -/
theorem fixed_fraction_schedule (t : SLOHedgingTransport) (j : ℕ)
    (h : j < t.max_hedges) :
    startTime t.hedgeDelays 0 = 0 ∧
    startTime t.hedgeDelays (j + 1) = t.target_slo * t.hedge_at * ((j + 1 : ℕ) : ℚ) := by
  refine ⟨rfl, ?_⟩
  show t.hedgeDelays.getD j 0 = _
  rw [SLOHedgingTransport.hedgeDelays,
    getD_map_nat _ _ _ (by rw [List.length_range]; exact h), getD_range _ _ h]
  rfl

/-- witness for C8: with target SLO 2, fraction 3/4 and two hedges, the
first hedge starts at 3/2 from dispatch start. -/
theorem fixed_fraction_schedule_witness :
    startTime (SLOHedgingTransport.hedgeDelays ⟨2, 3/4, 2⟩) 0 = 0 ∧
    startTime (SLOHedgingTransport.hedgeDelays ⟨2, 3/4, 2⟩) 1 =
      2 * (3/4) * ((0 + 1 : ℕ) : ℚ) :=
  fixed_fraction_schedule ⟨2, 3/4, 2⟩ 0 (by norm_num)

/-- an out-of-bounds `getD` access yields the fallback. -/
theorem list_getD_of_le {α : Type} (d : α) :
    ∀ (l : List α) (i : ℕ), l.length ≤ i → l.getD i d = d
  | [], _, _ => rfl
  | _ :: _, 0, h => absurd h (by simp)
  | _ :: l, i + 1, h => list_getD_of_le d l i (Nat.le_of_succ_le_succ h)

/-- every scheduled hedge delay is nonnegative when the base delay is. -/
theorem hedgeDelays_nonneg (t : SLOHedgingTransport) (hdel : 0 ≤ t.get_hedge_delay) :
    ∀ d ∈ t.hedgeDelays, 0 ≤ d := by
  intro d hd
  rw [SLOHedgingTransport.hedgeDelays] at hd
  obtain ⟨k, _, rfl⟩ := List.mem_map.mp hd
  exact mul_nonneg hdel (Nat.cast_nonneg _)

/-- start times are nonnegative when every delay is. -/
theorem startTime_nonneg (delays : List ℚ) (hd : ∀ x ∈ delays, 0 ≤ x) (i : ℕ) :
    0 ≤ startTime delays i := by
  cases i with
  | zero => exact le_refl 0
  | succ j =>
      show 0 ≤ delays.getD j 0
      by_cases hjl : j < delays.length
      · exact hd _ (list_getD_mem delays j hjl)
      · rw [list_getD_of_le 0 delays j (by omega)]

/-- settle times are nonnegative when delays and durations are. -/
theorem settleTime_nonneg (delays : List ℚ) (bs : List Attempt)
    (hd : ∀ x ∈ delays, 0 ≤ x) (hnn : ∀ a ∈ bs, 0 ≤ a.dur) (i : ℕ) :
    0 ≤ settleTime delays bs i := by
  have hdur : 0 ≤ (bs.getD i default).dur := by
    by_cases hil : i < bs.length
    · exact hnn _ (list_getD_mem bs i hil)
    · rw [list_getD_of_le default bs i (by omega)]
      exact le_refl 0
  exact add_nonneg (startTime_nonneg delays hd i) hdur

/-- the earliest settlement is nonnegative when delays and durations are. -/
theorem firstSettle_nonneg (delays : List ℚ) (bs : List Attempt)
    (hd : ∀ x ∈ delays, 0 ≤ x) (hnn : ∀ a ∈ bs, 0 ≤ a.dur) :
    0 ≤ firstSettle delays bs := by
  apply le_foldr_min 0 _ _ (settleTime_nonneg delays bs hd hnn 0)
  intro x hx
  obtain ⟨j, _, rfl⟩ := List.mem_map.mp hx
  exact settleTime_nonneg delays bs hd hnn j

/-- counterexample to C1: with target SLO 1, fraction 1/2 and one hedge,
attempt 0 fails at 0.1 — before the hedge delay of 0.5 — and the dispatch
propagates that failure at once, cancelling the still-sleeping hedge (the
first and only unfinished task) that would have succeeded at 0.55: the
failure of attempt 0 terminates the race, contrary to the claim that it
does not. -/
theorem failure_terminates_race_cex :
    sloDispatch ⟨1, 1/2, 1⟩ [⟨1/10, false⟩, ⟨1/20, true⟩] =
      .error (.transportError 0) ∧
    (([⟨1/10, false⟩, ⟨1/20, true⟩] : List Attempt).getD 1 default).ok = true ∧
    attemptStartedError (SLOHedgingTransport.hedgeDelays ⟨1, 1/2, 1⟩)
      [⟨1/10, false⟩, ⟨1/20, true⟩] 1 = false ∧
    taskFinalError (SLOHedgingTransport.hedgeDelays ⟨1, 1/2, 1⟩)
      [⟨1/10, false⟩, ⟨1/20, true⟩] 1 = TaskState.cancelled := by
  refine ⟨?_, rfl, ?_, ?_⟩ <;>
    norm_num [sloDispatch, winner, firstSettle, settleTime, startTime,
      SLOHedgingTransport.hedgeDelays, SLOHedgingTransport.get_hedge_delay,
      attemptStarted, attemptStartedError, taskFinalError, firstUnfinished,
      List.range_succ, min_def, List.findIdx_cons, List.find?]

/-- C1 (amended): the dispatcher returns the outcome of the first attempt to
complete, whether that completion is a success or a failure.  When the
first completed attempt failed, the failure propagates after the error-path
teardown: the first unfinished task in creation order is cancelled (and, if
it was still sleeping, it never invokes the transport — with a single
pending hedge this is that hedge), while every other unfinished attempt
runs to natural completion — still-sleeping hedges do fire and invoke the
transport during the teardown — and any late success among them is
discarded rather than returned. -/
theorem first_completion_decides (t : SLOHedgingTransport) (bs : List Attempt)
    (hnn : ∀ a ∈ bs, 0 ≤ a.dur) (hdel : 0 ≤ t.get_hedge_delay)
    (hfail : (bs.getD (winner t.hedgeDelays bs) default).ok = false) :
    sloDispatch t bs = .error (.transportError (winner t.hedgeDelays bs)) ∧
    (∀ i, firstUnfinished t.hedgeDelays bs = some i →
      taskFinalError t.hedgeDelays bs i = TaskState.cancelled ∧
      (firstSettle t.hedgeDelays bs < startTime t.hedgeDelays i →
        attemptStartedError t.hedgeDelays bs i = false)) ∧
    (∀ i < bs.length, firstSettle t.hedgeDelays bs < settleTime t.hedgeDelays bs i →
      firstUnfinished t.hedgeDelays bs ≠ some i →
      attemptStartedError t.hedgeDelays bs i = true ∧
      taskFinalError t.hedgeDelays bs i ≠ TaskState.cancelled) := by
  have hdels := hedgeDelays_nonneg t hdel
  refine ⟨?_, ?_, ?_⟩
  · have hshape : sloDispatch t bs =
        if (bs.getD (winner t.hedgeDelays bs) default).ok then
          Except.ok (winner t.hedgeDelays bs)
        else Except.error (PyErr.transportError (winner t.hedgeDelays bs)) := rfl
    rw [hshape, if_neg (by rw [hfail]; exact Bool.false_ne_true)]
  · intro i hf
    have hf' : (List.range bs.length).find?
        (fun j => decide (firstSettle t.hedgeDelays bs <
          settleTime t.hedgeDelays bs j)) = some i := hf
    have hp := List.find?_some hf'
    have hunf : firstSettle t.hedgeDelays bs < settleTime t.hedgeDelays bs i :=
      of_decide_eq_true hp
    have hset : ¬ (settleTime t.hedgeDelays bs i ≤ firstSettle t.hedgeDelays bs) :=
      not_le.mpr hunf
    constructor
    · rw [taskFinalError, if_neg hset, if_pos hf]
    · intro hlt
      have hi0 : i ≠ 0 := by
        intro h0
        rw [h0] at hlt
        exact absurd hlt (not_lt.mpr (firstSettle_nonneg _ _ hdels hnn))
      rw [attemptStartedError, attemptStarted, beq_eq_false_iff_ne.mpr hi0,
        Bool.false_or, decide_eq_false (not_lt.mpr (le_of_lt hlt)),
        decide_eq_true hf, hp]
      rfl
  · intro i hi hunf hnf
    have hset : ¬ (settleTime t.hedgeDelays bs i ≤ firstSettle t.hedgeDelays bs) :=
      not_le.mpr hunf
    constructor
    · rw [attemptStartedError, decide_eq_true hunf, decide_eq_false hnf]
      exact Bool.or_true _
    · rw [taskFinalError, if_neg hset, if_neg hnf]
      by_cases hok : (bs.getD i default).ok
      · rw [if_pos hok]
        intro h
        cases h
      · rw [if_neg hok]
        intro h
        cases h

/-- witness for C1 (amended): target SLO 1, fraction 1/2, two hedges
(delays 0.5 and 1.0); attempt 0 fails first at 0.1, the dispatch reports
that failure, hedge 1 — the first unfinished task, still sleeping — is
cancelled and never invokes the transport, while hedge 2 fires during the
teardown and completes uncancelled. -/
theorem first_completion_decides_witness :
    sloDispatch ⟨1, 1/2, 2⟩ [⟨1/10, false⟩, ⟨1/20, true⟩, ⟨1/20, true⟩] =
      .error (.transportError (winner (SLOHedgingTransport.hedgeDelays ⟨1, 1/2, 2⟩)
        [⟨1/10, false⟩, ⟨1/20, true⟩, ⟨1/20, true⟩])) ∧
    taskFinalError (SLOHedgingTransport.hedgeDelays ⟨1, 1/2, 2⟩)
      [⟨1/10, false⟩, ⟨1/20, true⟩, ⟨1/20, true⟩] 1 = TaskState.cancelled ∧
    attemptStartedError (SLOHedgingTransport.hedgeDelays ⟨1, 1/2, 2⟩)
      [⟨1/10, false⟩, ⟨1/20, true⟩, ⟨1/20, true⟩] 2 = true := by
  have h := first_completion_decides ⟨1, 1/2, 2⟩
    [⟨1/10, false⟩, ⟨1/20, true⟩, ⟨1/20, true⟩]
    (by norm_num [List.forall_mem_cons])
    (by norm_num [SLOHedgingTransport.get_hedge_delay])
    (by norm_num [winner, firstSettle, settleTime, startTime,
      SLOHedgingTransport.hedgeDelays, SLOHedgingTransport.get_hedge_delay,
      List.range_succ, min_def, List.findIdx_cons])
  refine ⟨h.1, (h.2.1 1 ?_).1, (h.2.2 2 (by norm_num) ?_ ?_).1⟩ <;>
    norm_num [firstUnfinished, firstSettle, settleTime, startTime,
      SLOHedgingTransport.hedgeDelays, SLOHedgingTransport.get_hedge_delay,
      List.range_succ, min_def, List.find?]

/-- C7: for every valid configuration, if attempt 0 succeeds strictly before
every hedge delay elapses, the dispatch returns attempt 0's response,
attempt 0 is the only attempt that ever invokes the transport, and every
hedge task is cancelled while still sleeping — a cancelled sleeping hedge
never starts its attempt. -/
theorem fast_original_no_hedge (t : SLOHedgingTransport) (bs : List Attempt)
    (hlen : bs.length = t.max_hedges + 1)
    (h0 : (bs.getD 0 default).ok = true)
    (hnn : ∀ a ∈ bs, 0 ≤ a.dur)
    (hfast : ∀ d ∈ t.hedgeDelays, (bs.getD 0 default).dur < d) :
    sloDispatch t bs = .ok 0 ∧
    (∀ i < bs.length, attemptStarted t.hedgeDelays bs i = true → i = 0) ∧
    (∀ i, 0 < i → i < bs.length →
      taskFinalSuccess t.hedgeDelays bs i = TaskState.cancelled) := by
  have hn : 0 < bs.length := by omega
  have hdlen : t.hedgeDelays.length = t.max_hedges := by
    rw [SLOHedgingTransport.hedgeDelays, List.length_map, List.length_range]
  have hA : ∀ i, 0 < i → i < bs.length →
      (bs.getD 0 default).dur < startTime t.hedgeDelays i := by
    intro i hipos hilt
    obtain ⟨j, rfl⟩ := Nat.exists_eq_succ_of_ne_zero (by omega : i ≠ 0)
    show (bs.getD 0 default).dur < t.hedgeDelays.getD j 0
    have hj : j < t.hedgeDelays.length := by omega
    exact hfast _ (list_getD_mem _ j hj)
  have hs0 : settleTime t.hedgeDelays bs 0 = (bs.getD 0 default).dur := by
    show startTime t.hedgeDelays 0 + _ = _
    rw [show startTime t.hedgeDelays 0 = 0 from rfl, zero_add]
  have hB : ∀ i, 0 < i → i < bs.length →
      settleTime t.hedgeDelays bs 0 < settleTime t.hedgeDelays bs i := by
    intro i hipos hilt
    have hdur : 0 ≤ (bs.getD i default).dur := hnn _ (list_getD_mem bs i hilt)
    calc settleTime t.hedgeDelays bs 0 = (bs.getD 0 default).dur := hs0
      _ < startTime t.hedgeDelays i := hA i hipos hilt
      _ ≤ settleTime t.hedgeDelays bs i := le_add_of_nonneg_right hdur
  have hD : firstSettle t.hedgeDelays bs = settleTime t.hedgeDelays bs 0 := by
    apply le_antisymm (foldr_min_le_init _ _)
    apply le_foldr_min _ _ _ (le_refl _)
    intro x hx
    obtain ⟨j, hj, rfl⟩ := List.mem_map.mp hx
    rw [List.mem_range] at hj
    rcases Nat.eq_zero_or_pos j with hj0 | hjpos
    · exact le_of_eq (by rw [hj0])
    · exact le_of_lt (hB j hjpos hj)
  have hE : winner t.hedgeDelays bs = 0 := by
    apply findIdx_range_zero _ _ hn
    rw [decide_eq_true_eq]
    exact hD.symm
  refine ⟨?_, ?_, ?_⟩
  · have hshape : sloDispatch t bs =
        if (bs.getD (winner t.hedgeDelays bs) default).ok then
          Except.ok (winner t.hedgeDelays bs)
        else Except.error (PyErr.transportError (winner t.hedgeDelays bs)) := rfl
    rw [hshape, hE, if_pos h0]
  · intro i hi hstart
    by_contra hne
    have hipos : 0 < i := by omega
    have h2 : ¬ (startTime t.hedgeDelays i < firstSettle t.hedgeDelays bs) := by
      rw [not_lt, hD, hs0]
      exact le_of_lt (hA i hipos hi)
    rw [attemptStarted, beq_eq_false_iff_ne.mpr hne, Bool.false_or,
      decide_eq_false h2] at hstart
    cases hstart
  · intro i hipos hilt
    have hset : ¬ (settleTime t.hedgeDelays bs i ≤ firstSettle t.hedgeDelays bs) := by
      rw [not_le, hD]
      exact hB i hipos hilt
    rw [taskFinalSuccess, if_neg hset]

/-- witness for C7: attempt 0 succeeds at 0.1, before the single hedge delay
of 0.5; the dispatch returns attempt 0's response. -/
theorem fast_original_no_hedge_witness :
    sloDispatch ⟨1, 1/2, 1⟩ [⟨1/10, true⟩, ⟨1/10, true⟩] = .ok 0 :=
  (fast_original_no_hedge ⟨1, 1/2, 1⟩ [⟨1/10, true⟩, ⟨1/10, true⟩]
    rfl rfl (by norm_num [List.forall_mem_cons])
    (by norm_num [SLOHedgingTransport.hedgeDelays,
      SLOHedgingTransport.get_hedge_delay, List.range_succ,
      List.forall_mem_cons])).1

end HttpxHedged
